import Mathlib

/-
Verification of the Netention note engine (automenta/microtention).

The development shallowly embeds the TypeScript sources:
  - src/src/index.ts   : the current engine (KnowTool, retrying runNote, KeyValueMemory)
  - src/src/seed.ts    : the Note record type and the bootstrap seed
  - src/unnamed/part_001, src/unnamed/part_002 : the earlier prototype iteration
    (SpawnTool, single-attempt runNote thatappends an error Memory Note)

Untyped JavaScript data is modelled by the JSON-like type Val; the id -> Note map
of KeyValueMemory is an association list; effectful code lives in the monad
M a = Sys -> Except String a x Sys, where a thrown JS exception keeps all side
effects performed so far (the state component is threaded through errors).
Modelling notes (each flagged again at its definition):
  - Date.now() and toISOString() are a logical clock in Sys, advanced by one per
    read and by the waited milliseconds per setTimeout.
  - logger/console output, websocket broadcasting and readline listener
    registration have no store effect and are not modelled, except for the
    trace events (Ev) that record scheduling-relevant occurrences.
  - JavaScript kv.get returns a reference to the stored object, so mutations of
    a loaded note are visible in the store before any saveNote; this aliasing
    is modelled by storeWrite (a store update that emits no change event).
  - unbounded tool -> runNote recursion is cut by a fuel parameter; exhausted
    fuel raises an ordinary model exception that the attempt boundary catches.
-/

namespace Netention

/- A JSON-like value modelling untyped JavaScript data. A missing property is
represented by Option.none at access sites; vnull models an explicit null. -/
mutual
inductive Val where
  | vnull
  | vbool (b : Bool)
  | vnum (n : Int)
  | vstr (s : String)
  | varr (xs : ValList)
  | vobj (fs : Fields)
deriving DecidableEq, Repr

inductive ValList where
  | nil
  | cons (v : Val) (rest : ValList)
deriving DecidableEq, Repr

inductive Fields where
  | fnil
  | fcons (k : String) (v : Val) (rest : Fields)
deriving DecidableEq, Repr
end

namespace Fields

/-- First binding of a key in an object, i.e. JS property lookup. -/
def lookup? : Fields → String → Option Val
  | .fnil, _ => none
  | .fcons k v rest, key => if k = key then some v else lookup? rest key

/-- JS property assignment: overwrite the existing key in place, else append. -/
def set : Fields → String → Val → Fields
  | .fnil, key, v => .fcons key v .fnil
  | .fcons k w rest, key, v =>
      if k = key then .fcons k v rest else .fcons k w (set rest key v)

/-- Builds an object field list from a Lean list (keys assumed distinct, as in
the object literals of the source). -/
def ofList : List (String × Val) → Fields
  | [] => .fnil
  | (k, v) :: rest => .fcons k v (ofList rest)

end Fields

namespace ValList

/-- Builds a ValList from a Lean list. -/
def ofList : List Val → ValList
  | [] => .nil
  | v :: rest => .cons v (ofList rest)

end ValList

/-- Object literal helper mirroring a JS object literal. -/
def Val.obj (l : List (String × Val)) : Val := .vobj (Fields.ofList l)

/-- Array literal helper. -/
def Val.arr (l : List Val) : Val := .varr (ValList.ofList l)

/-- Array of strings helper (e.g. a context list literal). -/
def Val.strList (l : List String) : Val := .varr (ValList.ofList (l.map .vstr))

/-- JS property read; non-objects have none of the properties the source reads
(string index properties are not modelled, no source path uses them). -/
def Val.get? : Val → String → Option Val
  | .vobj fs, k => fs.lookup? k
  | _, _ => none

/-- JS truthiness. -/
def Val.truthy : Val → Bool
  | .vnull => false
  | .vbool b => b
  | .vnum n => decide (n ≠ 0)
  | .vstr s => decide (s ≠ "")
  | .varr _ => true
  | .vobj _ => true

/-- Truthiness of a possibly missing property (undefined is falsy). -/
def optTruthy : Option Val → Bool
  | some v => v.truthy
  | none => false

/-- The JS expression (v || d) applied to a possibly missing property. -/
def jsOr (o : Option Val) (d : Val) : Val :=
  match o with
  | some v => if v.truthy then v else d
  | none => d

/-- Template-literal stringification, restricted to the cases the source
stringifies (strings, numbers, booleans; objects print as in JS; arrays are
never stringified on the modelled paths). -/
def Val.jsToString : Val → String
  | .vnull => "null"
  | .vbool b => if b then "true" else "false"
  | .vnum n => toString n
  | .vstr s => s
  | .varr _ => ""
  | .vobj _ => "[object Object]"

/-- First element of a JS array; indexing anything else yields undefined. -/
def arrHead : Val → Option Val
  | .varr (.cons x _) => some x
  | _ => none

/-- Shallow merge of the second object into the first, key by key in source
order, i.e. Object.assign(target, src) (also the effect of a spread merge).
A primitive source contributes no enumerable properties of interest, and
assigning into a primitive target leaves the bound value unchanged. -/
def assignFields : Fields → Fields → Fields
  | t, .fnil => t
  | t, .fcons k v rest => assignFields (t.set k v) rest

/-- Object.assign on values. -/
def Val.assign : Val → Val → Val
  | .vobj t, .vobj s => .vobj (assignFields t s)
  | t, _ => t

/-- A graph edge, as in the Note type of src/src/seed.ts. -/
structure Edge where
  target : String
  rel : String
deriving DecidableEq, Repr

/-- The Note record of src/src/seed.ts. The fields typed any in TS (content,
state, context, resources, logic) are Val; graph and memory keep their array
types, which every constructor site in the source respects. -/
structure Note where
  id : String
  content : Val
  graph : List Edge
  state : Val
  memory : List String
  tools : Fields
  context : Val
  ts : String
  resources : Val
  logic : Val
deriving DecidableEq, Repr

/-- The status property of a note state. -/
def Note.status? (n : Note) : Option Val := n.state.get? "status"

/-- Map keys produced from non-string id values; the claim-relevant paths only
produce string ids (a non-string JS Map key would never match a string key). -/
def keyOfVal (v : Val) : String := v.jsToString

/-- The note constructed by the spawn capability from its content argument.
The construction is literally identical in KnowTool._call (src/src/index.ts)
and SpawnTool._call (src/unnamed/part_001 and part_002); now stands for the
Date.now() and toISOString() reads of that site. -/
def mkSpawnNote (content : Val) (now : Nat) : Note :=
  { id := keyOfVal (jsOr (content.get? "id")
      (.vstr ((jsOr (content.get? "type") (.vstr "note")).jsToString ++ "-" ++ toString now)))
    content := content
    state := jsOr (content.get? "state")
      (Val.obj [("status", .vstr "running"), ("priority", .vnum 50), ("entropy", .vnum 0)])
    graph := []
    memory := []
    tools := .fnil
    context := jsOr (content.get? "context") (Val.strList ["root"])
    ts := toString now
    resources := jsOr (content.get? "resources")
      (Val.obj [("tokens", .vnum 100), ("cycles", .vnum 100)])
    logic := jsOr (content.get? "logic") (Val.obj []) }

/-- The Memory Note built by saveMemory (identical in index.ts and the
prototype parts); entry is the raw memory value (a string in every caller). -/
def mkMemoryNote (parentId : String) (entry : Val) (now : Nat) : Note :=
  { id := parentId ++ "-" ++ toString now
    content := entry
    state := Val.obj [("status", .vstr "done"), ("priority", .vnum 0), ("entropy", .vnum 0)]
    graph := []
    memory := []
    tools := .fnil
    context := Val.strList [parentId]
    ts := toString now
    resources := Val.obj [("tokens", .vnum 0), ("cycles", .vnum 0)]
    logic := Val.obj [] }

/-- The lazily created Control Note of UIControlTool._call. -/
def mkControlNote (now : Nat) : Note :=
  { id := "ui-status"
    content := Val.obj [("paused", .vbool false)]
    state := Val.obj [("status", .vstr "running"), ("priority", .vnum 90), ("entropy", .vnum 0)]
    graph := []
    memory := []
    tools := .fnil
    context := Val.strList ["root"]
    ts := toString now
    resources := Val.obj [("tokens", .vnum 100), ("cycles", .vnum 100)]
    logic := Val.obj [] }

/-- The control task note created by the ui_input line handler on a pause or
resume command (src/src/index.ts lines 154-167). -/
def mkInputTask (cmd : String) (now : Nat) : Note :=
  { id := "control-" ++ toString now
    content := Val.obj [("type", .vstr "task"), ("desc", .vstr cmd),
      ("logic", Val.obj [("type", .vstr "sequential"),
        ("steps", Val.arr [Val.obj [("tool", .vstr "ui_control"),
          ("input", Val.obj [("command", .vstr cmd), ("desc", .vstr "Toggle execution")])]])])]
    state := Val.obj [("status", .vstr "running"), ("priority", .vnum 90), ("entropy", .vnum 0)]
    graph := []
    memory := []
    tools := .fnil
    context := Val.strList ["ui-prompt"]
    ts := toString now
    resources := Val.obj [("tokens", .vnum 100), ("cycles", .vnum 100)]
    logic := Val.obj [] }

/-- The pending note created by the ui_input line handler on a know command
(src/src/index.ts lines 168-184). -/
def mkInputNote (ty d : String) (now : Nat) : Note :=
  { id := ty ++ "-" ++ toString now
    content := Val.obj [("type", .vstr ty), ("desc", .vstr d)]
    state := Val.obj [("status", .vstr "pending"), ("priority", .vnum 50), ("entropy", .vnum 0)]
    graph := []
    memory := []
    tools := .fnil
    context := Val.strList ["root"]
    ts := toString now
    resources := Val.obj [("tokens", .vnum 100), ("cycles", .vnum 100)]
    logic := Val.obj [] }

/-- The bootstrap seed of src/src/seed.ts. -/
def seedNote : Note :=
  { id := "root"
    content := Val.obj [("type", .vstr "system"),
      ("desc", .vstr "Netention v5: Self-evolving knowledge fabric"),
      ("config", Val.obj [("maxMemory", .vnum 50), ("tickRate", .vnum 10),
        ("tokenBudget", .vnum 5000), ("defaultPriority", .vnum 50)]),
      ("metamodel", Val.obj [("note", Val.obj [("id", .vstr "string"),
        ("content", .vstr "any"), ("graph", .vstr "array")]),
        ("rules", Val.strList ["spawn", "prune"])]),
      ("prompts", Val.obj [("plan", .vstr "Plan: \x7bdesc\x7d"),
        ("gen", .vstr "Generate: \x7bprompt\x7d"), ("eval", .vstr "Eval: \x7bexpr\x7d")])]
    graph := []
    state := Val.obj [("status", .vstr "running"), ("priority", .vnum 100), ("entropy", .vnum 0)]
    memory := []
    tools := .fnil
    context := Val.strList []
    ts := "0"
    resources := Val.obj [("tokens", .vnum 5000), ("cycles", .vnum 10000)]
    logic := Val.obj [("type", .vstr "sequential"),
      ("steps", Val.arr [
        Val.obj [("tool", .vstr "spawn"), ("input", Val.obj [("content",
          Val.obj [("type", .vstr "tool"), ("name", .vstr "spawn"),
            ("desc", .vstr "Create Note"), ("execute", .vstr "kv.put")])])],
        Val.obj [("tool", .vstr "spawn"), ("input", Val.obj [("content",
          Val.obj [("type", .vstr "tool"), ("name", .vstr "code_gen"),
            ("desc", .vstr "Generate JS"), ("execute", .vstr "code_gen")])])],
        Val.obj [("tool", .vstr "spawn"), ("input", Val.obj [("content",
          Val.obj [("type", .vstr "tool"), ("name", .vstr "reflect"),
            ("desc", .vstr "Self-analyze"), ("execute", .vstr "reflect")])])],
        Val.obj [("tool", .vstr "spawn"), ("input", Val.obj [("content",
          Val.obj [("type", .vstr "tool"), ("name", .vstr "ui_render"),
            ("desc", .vstr "Render UI"), ("execute", .vstr "uiRender")])])],
        Val.obj [("tool", .vstr "spawn"), ("input", Val.obj [("content",
          Val.obj [("type", .vstr "tool"), ("name", .vstr "ui_input"),
            ("desc", .vstr "Handle input"), ("execute", .vstr "uiInput")])])],
        Val.obj [("tool", .vstr "spawn"), ("input", Val.obj [("content",
          Val.obj [("type", .vstr "tool"), ("name", .vstr "ui_control"),
            ("desc", .vstr "Control execution"), ("execute", .vstr "uiControl")])])],
        Val.obj [("tool", .vstr "spawn"), ("input", Val.obj [("content",
          Val.obj [("type", .vstr "UI"), ("id", .vstr "ui-tree"),
            ("desc", .vstr "Activity Tree"),
            ("state", Val.obj [("status", .vstr "running"), ("priority", .vnum 80)]),
            ("logic", Val.obj [("type", .vstr "sequential"),
              ("steps", Val.arr [Val.obj [("tool", .vstr "ui_render"),
                ("input", Val.obj [("target", .vstr "tree"),
                  ("desc", .vstr "Render tree")])]])])])])],
        Val.obj [("tool", .vstr "spawn"), ("input", Val.obj [("content",
          Val.obj [("type", .vstr "UI"), ("id", .vstr "ui-log"),
            ("desc", .vstr "Log Display"),
            ("state", Val.obj [("status", .vstr "running"), ("priority", .vnum 70)]),
            ("logic", Val.obj [("type", .vstr "sequential"),
              ("steps", Val.arr [Val.obj [("tool", .vstr "ui_render"),
                ("input", Val.obj [("target", .vstr "log"),
                  ("desc", .vstr "Render log")])]])])])])],
        Val.obj [("tool", .vstr "spawn"), ("input", Val.obj [("content",
          Val.obj [("type", .vstr "UI"), ("id", .vstr "ui-prompt"),
            ("desc", .vstr "Input Prompt"),
            ("state", Val.obj [("status", .vstr "running"), ("priority", .vnum 60)]),
            ("logic", Val.obj [("type", .vstr "sequential"),
              ("steps", Val.arr [Val.obj [("tool", .vstr "ui_input"),
                ("input", Val.obj [])]])])])])],
        Val.obj [("tool", .vstr "spawn"), ("input", Val.obj [("content",
          Val.obj [("type", .vstr "UI"), ("id", .vstr "ui-status"),
            ("desc", .vstr "Execution Status"),
            ("content", Val.obj [("paused", .vbool false)]),
            ("state", Val.obj [("status", .vstr "running"), ("priority", .vnum 90)]),
            ("logic", Val.obj [("type", .vstr "sequential"),
              ("steps", Val.arr [Val.obj [("tool", .vstr "ui_control"),
                ("input", Val.obj [("desc", .vstr "Update status")])]])])])])]])] }

/-- Trace events: change notifications (emitted by saveNote), and markers for
the scheduling-relevant occurrences of a run (logger lines at the attempt
boundary, backoff waits, tool invocations, runNote invocations). -/
inductive Ev where
  | change (id : String)
  | attemptStart (id : String) (attempt : Nat)
  | errRunning (id : String) (msg : String)
  | maxRetries (id : String)
  | delayed (ms : Nat)
  | toolCalled (name : String) (arg : Val)
  | ranNote (id : String)
deriving DecidableEq, Repr

/-- System state: the id keyed note store of KeyValueMemory, the event trace,
and the logical clock standing for Date.now(). -/
structure Sys where
  store : List (String × Note)
  events : List Ev
  clock : Nat
deriving DecidableEq, Repr

/-- Effect monad: state plus JS exceptions; a thrown exception keeps all side
effects performed before the throw. -/
def M (α : Type) : Type := Sys → Except String α × Sys

instance : Monad M where
  pure a := fun s => (Except.ok a, s)
  bind x f := fun s =>
    match x s with
    | (Except.ok a, s1) => f a s1
    | (Except.error e, s1) => (Except.error e, s1)

/-- Throws a JS exception carrying its message. -/
def mThrow {α : Type} (e : String) : M α := fun s => (Except.error e, s)

/-- try/catch: the handler sees the state as left by the failed body. -/
def mCatch {α : Type} (x : M α) (h : String → M α) : M α := fun s =>
  match x s with
  | (Except.ok a, s1) => (Except.ok a, s1)
  | (Except.error e, s1) => h e s1

/-- Appends a trace event. -/
def emitEv (e : Ev) : M Unit := fun s =>
  (Except.ok (), { s with events := s.events ++ [e] })

/-- One Date.now() read; the logical clock advances so that successive reads
are distinct (real time is monotone across the awaits separating them). -/
def nowTick : M Nat := fun s => (Except.ok s.clock, { s with clock := s.clock + 1 })

/-- The awaited setTimeout of the retry backoff: records the wait and advances
the clock by the waited milliseconds. -/
def delayMs (ms : Nat) : M Unit := fun s =>
  (Except.ok (), { s with events := s.events ++ [Ev.delayed ms], clock := s.clock + ms })

/-- Association-list lookup of the kv map. -/
def findNote : List (String × Note) → String → Option Note
  | [], _ => none
  | (k, n) :: rest, id => if k = id then some n else findNote rest id

/-- kv.set: replace the value of an existing key in place, else append
(JS Map preserves insertion order). -/
def upsert : List (String × Note) → Note → List (String × Note)
  | [], n => [(n.id, n)]
  | (k, m) :: rest, n => if k = n.id then (k, n) :: rest else (k, m) :: upsert rest n

/-- KeyValueMemory.saveNote: upsert, then emit the change notification carrying
the saved id (src/src/index.ts lines 45-50). -/
def saveNote (n : Note) : M Unit := fun s =>
  (Except.ok (), { s with store := upsert s.store n, events := s.events ++ [Ev.change n.id] })

/-- KeyValueMemory.loadNote: the stored note, or a NotFound error
(src/src/index.ts lines 52-57). -/
def loadNote (id : String) : M Note := fun s =>
  match findNote s.store id with
  | some n => (Except.ok n, s)
  | none => (Except.error ("Note " ++ id ++ " not found"), s)

/-- Aliasing write-through: a loaded note is the stored object, so an in-place
mutation is visible in the store without a saveNote and without a change
event. -/
def storeWrite (n : Note) : M Unit := fun s =>
  (Except.ok (), { s with store := upsert s.store n })

/-- The stored note under an id, with a fallback (reads the value a still-held
JS reference would see). -/
def getNoteOr (id : String) (fallback : Note) : M Note := fun s =>
  (Except.ok (match findNote s.store id with | some m => m | none => fallback), s)

/-- saveMemory of src/src/index.ts lines 293-309 (textually identical in the
prototype parts): build a Memory Note under a timestamped id and save it. -/
def saveMemory (parentId : String) (entry : Val) : M String := do
  let t ← nowTick
  let n := mkMemoryNote parentId entry t
  saveNote n
  pure n.id

/-- A capability result object: status, optional content, optional memory. -/
structure ToolResult where
  status : Option Val
  content : Option Val
  memory : Option Val
deriving DecidableEq, Repr

/-- Zod validation of an optional object schema: the passed value must be an
object (the call sites never pass undefined). -/
def validateObj (input : Val) : M Unit :=
  match input with
  | .vobj _ => pure ()
  | _ => mThrow "ValidationError: expected object"

/-- Zod validation of an optional string field. -/
def validateOptStr (input : Val) (key : String) : M Unit :=
  match input.get? key with
  | none => pure ()
  | some (.vstr _) => pure ()
  | some _ => mThrow ("ValidationError: " ++ key)

/-- Zod validation of the optional target enum of UIRenderTool. -/
def validateTarget (input : Val) : M Unit :=
  match input.get? "target" with
  | none => pure ()
  | some v => if v = .vstr "tree" ∨ v = .vstr "log" then pure ()
              else mThrow "ValidationError: target"

/-- JS property write: setting a property of a primitive throws in strict
mode. -/
def setProp (v : Val) (k : String) (w : Val) : M Val :=
  match v with
  | .vobj fs => pure (.vobj (fs.set k w))
  | _ => mThrow "TypeError: cannot set property"

/-- The statusNote.content read of runNote and UIRenderTool: load ui-status,
defaulting to an object whose content has paused false when it is absent
(src/src/index.ts lines 118 and 259). -/
def loadStatusContent : M Val :=
  mCatch (do let n ← loadNote "ui-status"; pure n.content)
         (fun _ => pure (Val.obj [("paused", .vbool false)]))

/-- UIRenderTool._call of src/src/index.ts: reads target and desc with
defaults, reads the pause flag, loads root for the tree target (a missing root
throws), and returns a running status with the desc as memory. Console writes
are not modelled; the per-child loads of the tree branch catch their own
errors and only feed console output. -/
def uiRenderCall (input : Val) : M ToolResult := do
  validateObj input
  validateTarget input
  validateOptStr input "desc"
  let target := jsOr (input.get? "target") (.vstr "tree")
  let desc := jsOr (input.get? "desc") (.vstr "UI render")
  let _paused ← loadStatusContent
  (if target = .vstr "tree" then do
      let _root ← loadNote "root"
      pure ()
   else pure ())
  pure { status := some (.vstr "running"), content := none, memory := some (.vstr desc.jsToString) }

/-- UIInputTool._call of src/src/index.ts: registers a readline listener (no
immediate store effect; the listener bodies are mkInputTask and mkInputNote)
and reports a running status. -/
def uiInputCall (input : Val) : M ToolResult := do
  validateObj input
  pure { status := some (.vstr "running"), content := none, memory := none }

/-- UIControlTool._call of src/src/index.ts lines 197-222: lazily create the
Control Note, set or clear its paused flag for a pause or resume command, save
it, and return its content. -/
def uiControlCall (input : Val) : M ToolResult := do
  validateObj input
  validateOptStr input "command"
  validateOptStr input "desc"
  let cmd := input.get? "command"
  let existing ← mCatch (do let n ← loadNote "ui-status"; pure (some n))
                        (fun _ => pure none)
  let base ← (match existing with
    | some n => pure n
    | none => do
        let t ← nowTick
        let c := mkControlNote t
        saveNote c
        pure c)
  let newContent ←
    (if cmd = some (.vstr "pause") then setProp base.content "paused" (.vbool true)
     else if cmd = some (.vstr "resume") then setProp base.content "paused" (.vbool false)
     else pure base.content)
  let updated := { base with content := newContent }
  saveNote updated
  pure { status := some (.vstr "running"), content := some updated.content, memory := none }

/-- tools.find over the tool array of src/src/index.ts line 263, by strict
equality of the searched value with each tool name. -/
def findToolName (v : Val) : Option String :=
  match v with
  | .vstr s =>
      if s = "know" then some "know"
      else if s = "ui_render" then some "ui_render"
      else if s = "ui_input" then some "ui_input"
      else if s = "ui_control" then some "ui_control"
      else none
  | _ => none

/-- The not-found message text, stringifying the searched value as a template
literal does (a missing property prints as undefined). -/
def toolNotFoundMsg (v : Option Val) : String :=
  "Tool " ++ (match v with | some w => w.jsToString | none => "undefined") ++ " not found"

/-- note.state.status = result.status || "done" as a pure partial function
(none when note.state is a primitive, where the JS write would throw). -/
def mergedNote? (n : Note) (r : ToolResult) : Option Note :=
  match n.state with
  | .vobj fs => some { n with state := .vobj (fs.set "status" (jsOr r.status (.vstr "done"))) }
  | _ => none

/-- The status write of the result merge (src/src/index.ts lines 270 and 278). -/
def applyResultStatus (n : Note) (r : ToolResult) : M Note :=
  match mergedNote? n r with
  | some n2 => pure n2
  | none => mThrow "TypeError: cannot set property"

/-- Object.assign(note.content, result.content); assigning undefined is a
no-op (src/src/index.ts lines 271 and 279). -/
def applyResultContent (n : Note) (r : ToolResult) : Note :=
  match r.content with
  | some c => { n with content := n.content.assign c }
  | none => n

/-- if (result.memory) note.memory.push(await saveMemory(...)) of
src/src/index.ts lines 272 and 280. -/
def applyResultMemory (n : Note) (r : ToolResult) : M Note :=
  match r.memory with
  | some mv =>
      if mv.truthy then do
        let mid ← saveMemory n.id mv
        pure { n with memory := n.memory ++ [mid] }
      else pure n
  | none => pure n

/-- The full result merge of one capability invocation, followed by the
aliasing write-through: the mutated note is the stored object. -/
def applyResult (n : Note) (r : ToolResult) : M Note := do
  let n1 ← applyResultStatus n r
  let n2 := applyResultContent n1 r
  let n3 ← applyResultMemory n2 r
  storeWrite n3
  pure n3

/-- A graph array as a JS value. -/
def graphToVal (g : List Edge) : Val :=
  Val.arr (g.map (fun e => Val.obj [("target", .vstr e.target), ("rel", .vstr e.rel)]))

/-- A Note as the JS object the source returns in tool results, with the field
order of the constructor sites. -/
def noteToVal (n : Note) : Val :=
  Val.obj [("id", .vstr n.id), ("content", n.content), ("state", n.state),
    ("graph", graphToVal n.graph),
    ("memory", .varr (ValList.ofList (n.memory.map .vstr))),
    ("tools", .vobj n.tools), ("context", n.context), ("ts", .vstr n.ts),
    ("resources", n.resources), ("logic", n.logic)]

/-- Membership of a target among the outgoing edges of a graph. -/
def hasEdgeTo (g : List Edge) (t : String) : Bool :=
  g.any (fun e => e.target == t)

/-- loadNote keyed by a JS value: a non-string value never matches a string
Map key. -/
def loadNoteVal (v : Val) : M Note :=
  match v with
  | .vstr s => loadNote s
  | w => mThrow ("Note " ++ w.jsToString ++ " not found")

/-- KnowTool._call of src/src/index.ts lines 78-107, parameterized by the
runNote knot: build and save the new note, link it into the parent graph
behind the existence check, and run it unless its content name is the
capability name know. The returned content is the note object as the still
held reference sees it after the run. -/
def knowToolG (run : String → M Unit) (input : Val) : M ToolResult := do
  validateObj input
  match input.get? "content" with
  | none => mThrow "TypeError: cannot read properties of undefined"
  | some content => do
      (if content = .vnull then mThrow "TypeError: cannot read properties of null" else pure ())
      let t ← nowTick
      let n := mkSpawnNote content t
      saveNote n
      let parentIdV := jsOr (arrHead n.context) (.vstr "root")
      let parent ← loadNoteVal parentIdV
      (if hasEdgeTo parent.graph n.id then pure ()
       else do
         let parent2 := { parent with graph := parent.graph ++ [Edge.mk n.id "contains"] }
         saveNote parent2)
      (if n.content.get? "name" ≠ some (.vstr "know") then run n.id else pure ())
      let finalN ← getNoteOr n.id n
      pure { status := some (.vstr "done"), content := some (noteToVal finalN), memory := none }

/-- Dispatch of an admitted tool.call of src/src/index.ts, with a trace marker
recording the invocation and its argument. -/
def toolCallG (run : String → M Unit) (name : String) (arg : Val) : M ToolResult := do
  emitEv (.toolCalled name arg)
  if name = "know" then knowToolG run arg
  else if name = "ui_render" then uiRenderCall arg
  else if name = "ui_input" then uiInputCall arg
  else if name = "ui_control" then uiControlCall arg
  else mThrow (toolNotFoundMsg (some (.vstr name)))

/-- The sequential step loop of src/src/index.ts lines 266-273: resolve each
step tool (missing throws), invoke it with step.input or an empty object, and
merge its result into the running note. -/
def runStepsG (run : String → M Unit) : ValList → Note → M Note
  | .nil, n => pure n
  | .cons step rest, n => do
      let toolV := step.get? "tool"
      match findToolName (match toolV with | some v => v | none => .vnull) with
      | none => mThrow (toolNotFoundMsg toolV)
      | some tn => do
          let r ← toolCallG run tn (jsOr (step.get? "input") (Val.obj []))
          let n2 ← applyResult n r
          runStepsG run rest n2

/-- One attempt of runNote (the try body of src/src/index.ts lines 257-284):
load the note and the pause flag, return on the eligibility gate, otherwise
execute the sequential logic or the single content-name capability, merging
results, and finally save the note. -/
def attemptBodyG (run : String → M Unit) (id : String) (attempt : Nat) : M Unit := do
  let note ← loadNote id
  let statusContent ← loadStatusContent
  if optTruthy (statusContent.get? "paused") ∨ note.status? ≠ some (.vstr "running") then
    pure ()
  else do
    emitEv (.attemptStart id attempt)
    let finalN ←
      (if note.logic.truthy ∧ note.logic.get? "type" = some (.vstr "sequential")
          ∧ optTruthy (note.logic.get? "steps") then
        (match note.logic.get? "steps" with
         | some (.varr steps) => runStepsG run steps note
         | _ => mThrow "TypeError: steps is not iterable")
       else if optTruthy (note.content.get? "name") then do
        (match findToolName (match note.content.get? "name" with
            | some v => v | none => .vnull) with
         | none => mThrow (toolNotFoundMsg (note.content.get? "name"))
         | some tn => do
             let r ← toolCallG run tn note.content
             applyResult note r)
       else pure note)
    saveNote finalN

/-- MAX_RETRIES of src/src/index.ts line 17. -/
def MAX_RETRIES : Nat := 3

/-- The base backoff interval of src/src/index.ts line 288 in milliseconds. -/
def BASE_DELAY : Nat := 1000

/-- The retry loop of runNote, counting down the remaining attempts r: a
successful attempt returns; a throwing attempt logs the error, and either logs
max retries reached (last attempt) or waits attempt times the base interval
and retries. -/
def runFromG (run : String → M Unit) (id : String) : Nat → Nat → M Unit
  | 0, _ => pure ()
  | r + 1, attempt =>
      mCatch (attemptBodyG run id attempt)
        (fun e => do
          emitEv (.errRunning id e)
          if r = 0 then emitEv (.maxRetries id)
          else do
            delayMs (BASE_DELAY * attempt)
            runFromG run id r (attempt + 1))

/-- runNote of src/src/index.ts lines 255-291, parameterized by the knot used
for the recursive runNote calls of spawned notes; the leading event marks the
invocation. -/
def runNoteG (run : String → M Unit) (id : String) : M Unit := do
  emitEv (.ranNote id)
  runFromG run id MAX_RETRIES 1

/-- runNote with the recursion cut by fuel; exhausted fuel throws an ordinary
model exception that the attempt boundary of the caller catches. -/
def runNoteFuel : Nat → String → M Unit
  | 0 => runNoteG (fun _ => mThrow "model: recursion fuel exhausted")
  | f + 1 => runNoteG (runNoteFuel f)

/-- The spawn capability of src/src/index.ts invoked standalone at a given
recursion fuel. -/
def knowToolCall (fuel : Nat) (input : Val) : M ToolResult :=
  knowToolG (runNoteFuel fuel) input

/-- SpawnTool._call, identical in src/unnamed/part_001 lines 34-51 and
src/unnamed/part_002 lines 21-38: build and save the new note (the note
construction is mkSpawnNote, shared with KnowTool), then run it unless its
content name is the literal capability name spawn; no parent graph update
exists in this iteration. -/
def spawnToolG (run : String → M Unit) (input : Val) : M ToolResult := do
  validateObj input
  match input.get? "content" with
  | none => mThrow "TypeError: cannot read properties of undefined"
  | some content => do
      (if content = .vnull then mThrow "TypeError: cannot read properties of null" else pure ())
      let t ← nowTick
      let n := mkSpawnNote content t
      saveNote n
      (if n.content.get? "name" ≠ some (.vstr "spawn") then run n.id else pure ())
      let finalN ← getNoteOr n.id n
      pure { status := some (.vstr "done"), content := some (noteToVal finalN), memory := none }

/-- CodeGenTool._call of src/unnamed/part_002 lines 41-50 (a placeholder with
no store effect). -/
def codeGenCall2 (_input : Val) : M ToolResult :=
  pure { status := some (.vstr "done"), content := some (Val.obj []), memory := none }

/-- ReflectTool._call of src/unnamed/part_002 lines 52-61 (a placeholder with
no store effect). -/
def reflectCall2 (_input : Val) : M ToolResult :=
  pure { status := some (.vstr "done"), content := some (Val.obj []), memory := none }

/-- UIRenderTool._call of src/unnamed/part_002 lines 63-94: target and desc
are required by the schema; the body only reads the store and writes the
console, and returns a running status with the desc as memory. -/
def uiRenderCall2 (input : Val) : M ToolResult := do
  validateObj input
  (match input.get? "target" with
   | some v => if v = .vstr "tree" ∨ v = .vstr "log" then pure ()
               else mThrow "ValidationError: target"
   | none => mThrow "ValidationError: target")
  (match input.get? "desc" with
   | some (.vstr _) => pure ()
   | _ => mThrow "ValidationError: desc")
  let desc := match input.get? "desc" with | some v => v.jsToString | none => ""
  pure { status := some (.vstr "running"), content := none, memory := some (.vstr desc) }

/-- UIInputTool._call of src/unnamed/part_002 lines 96-140: registers a stdin
listener (no immediate store effect) and reports a running status. -/
def uiInputCall2 (input : Val) : M ToolResult := do
  validateObj input
  pure { status := some (.vstr "running"), content := none, memory := none }

/-- The statusNote read of src/unnamed/part_002 lines 148 and 178: a direct
kv.get with an inline default, never throwing. -/
def getStatusNote2 : M (Option Note) := fun s =>
  (Except.ok (findNote s.store "ui-status"), s)

/-- UIControlTool._call of src/unnamed/part_002 lines 142-161: desc is
required by the schema; lazily create the Control Note, toggle the paused
flag, save. -/
def uiControlCall2 (input : Val) : M ToolResult := do
  validateObj input
  validateOptStr input "command"
  (match input.get? "desc" with
   | some (.vstr _) => pure ()
   | _ => mThrow "ValidationError: desc")
  let cmd := input.get? "command"
  let existing ← getStatusNote2
  let base ← (match existing with
    | some n => pure n
    | none => do
        let t ← nowTick
        let c := mkControlNote t
        saveNote c
        pure c)
  let newContent ←
    (if cmd = some (.vstr "pause") then setProp base.content "paused" (.vbool true)
     else if cmd = some (.vstr "resume") then setProp base.content "paused" (.vbool false)
     else pure base.content)
  let updated := { base with content := newContent }
  saveNote updated
  pure { status := some (.vstr "running"), content := some updated.content, memory := none }

/-- tools.find over the six tools of src/unnamed/part_002 line 182. -/
def findToolName2 (v : Val) : Option String :=
  match v with
  | .vstr s =>
      if s = "spawn" then some "spawn"
      else if s = "code_gen" then some "code_gen"
      else if s = "reflect" then some "reflect"
      else if s = "ui_render" then some "ui_render"
      else if s = "ui_input" then some "ui_input"
      else if s = "ui_control" then some "ui_control"
      else none
  | _ => none

/-- Tool dispatch of the prototype iteration, with the invocation marker. -/
def toolCall2G (run : String → M Unit) (name : String) (arg : Val) : M ToolResult := do
  emitEv (.toolCalled name arg)
  if name = "spawn" then spawnToolG run arg
  else if name = "code_gen" then codeGenCall2 arg
  else if name = "reflect" then reflectCall2 arg
  else if name = "ui_render" then uiRenderCall2 arg
  else if name = "ui_input" then uiInputCall2 arg
  else if name = "ui_control" then uiControlCall2 arg
  else mThrow (toolNotFoundMsg (some (.vstr name)))

/-- The step chain of src/unnamed/part_002 lines 184-197. The langchain
SequentialChain wrapper is modelled as in-order invocation of the steps whose
final output is the chain result; a missing step tool throws out of the
chain. -/
def runSteps2G (run : String → M Unit) : ValList → ToolResult → M ToolResult
  | .nil, acc => pure acc
  | .cons step rest, _ => do
      let toolV := step.get? "tool"
      match findToolName2 (match toolV with | some v => v | none => .vnull) with
      | none => mThrow (toolNotFoundMsg toolV)
      | some tn => do
          let r ← toolCall2G run tn (jsOr (step.get? "input") (Val.obj []))
          runSteps2G run rest r

/-- runNote of src/unnamed/part_002 lines 175-215: a single attempt whose
whole body is wrapped in one try/catch; the catch appends an Error Memory
Note. The single-capability branch invokes the tool with note.logic.input.
The leading event marks the invocation. -/
def runNote2G (run : String → M Unit) (id : String) : M Unit := do
  emitEv (.ranNote id)
  mCatch
    (do
      let note ← loadNote id
      let statusOpt ← getStatusNote2
      let statusContent := match statusOpt with
        | some n => n.content
        | none => Val.obj [("paused", .vbool false)]
      if optTruthy (statusContent.get? "paused") ∨ note.status? ≠ some (.vstr "running") then
        pure ()
      else do
        (if note.logic = .vnull then mThrow "TypeError: cannot read properties of undefined"
         else pure ())
        let finalN ←
          (if note.logic.get? "type" = some (.vstr "sequential")
              ∧ optTruthy (note.logic.get? "steps") then
            (match note.logic.get? "steps" with
             | some (.varr steps) => do
                 let r ← runSteps2G run steps { status := none, content := none, memory := none }
                 applyResult note r
             | _ => mThrow "TypeError: steps is not iterable")
           else if optTruthy (note.content.get? "name") then do
            (match findToolName2 (match note.content.get? "name" with
                | some v => v | none => .vnull) with
             | none => mThrow (toolNotFoundMsg (note.content.get? "name"))
             | some tn => do
                 let r ← toolCall2G run tn (jsOr (note.logic.get? "input") (Val.obj []))
                 applyResult note r)
           else pure note)
        saveNote finalN)
    (fun e => do
      emitEv (.errRunning id e)
      let _ ← saveMemory id (.vstr ("Error: " ++ e))
      pure ())

/-- The prototype runNote with the recursion cut by fuel. -/
def runNote2Fuel : Nat → String → M Unit
  | 0 => runNote2G (fun _ => mThrow "model: recursion fuel exhausted")
  | f + 1 => runNote2G (runNote2Fuel f)

/-- The spawn capability of the prototype iteration invoked standalone at a
given recursion fuel. -/
def spawnToolCall (fuel : Nat) (input : Val) : M ToolResult :=
  spawnToolG (runNote2Fuel fuel) input

/-- The concurrency ceiling of pLimit(10), src/src/index.ts line 69. -/
def concurrencyLimit : Nat := 10

/-- The observable state of the bounded task pool: tasks running now and tasks
queued behind the ceiling. Modelled from the spec: the p-limit dependency is
external to the repository; its documented contract (at most the limit of
functions running, further submissions queued until a slot frees) is section
4.6 of the specification. -/
structure Sched where
  active : Nat
  queued : Nat
deriving DecidableEq, Repr

/-- The empty pool. -/
def schedInit : Sched := { active := 0, queued := 0 }

/-- Submission of limit(() => runNote(id)): start the task when a slot is
free, else queue it. -/
def submitTask (s : Sched) : Sched :=
  if s.active < concurrencyLimit then { s with active := s.active + 1 }
  else { s with queued := s.queued + 1 }

/-- Completion of a running task: a queued task takes over the slot when one
waits, else the slot frees. -/
def completeTask (s : Sched) : Sched :=
  if s.queued > 0 then { s with queued := s.queued - 1 }
  else { s with active := s.active - 1 }

/-- handleEvent of src/src/index.ts lines 311-313, viewed at the pool level:
a change event submits a bounded task, any other event is ignored. -/
def handleEvent (event : String) (_id : String) (s : Sched) : Sched :=
  if event = "change" then submitTask s else s

/-- A pool history: each entry is an incoming event (submitted through
handleEvent) or a task completion. -/
inductive SchedOp where
  | arrive (event : String) (id : String)
  | complete
deriving DecidableEq, Repr

/-- One pool transition. -/
def schedStep : Sched → SchedOp → Sched
  | s, .arrive ev id => handleEvent ev id s
  | s, .complete => completeTask s

/-- The pool state after a history. -/
def schedRun (ops : List SchedOp) : Sched := ops.foldl schedStep schedInit

/-- The four data-model statuses. -/
def validStatus (v : Val) : Prop :=
  v = .vstr "pending" ∨ v = .vstr "running" ∨ v = .vstr "done" ∨ v = .vstr "failed"

instance (v : Val) : Decidable (validStatus v) := by
  unfold validStatus; infer_instance

/-- A note whose state carries one of the four statuses. -/
def noteStatusOk (n : Note) : Prop :=
  ∃ v, n.status? = some v ∧ validStatus v

/-- Every note of the store carries a valid status. -/
def storeInv (st : List (String × Note)) : Prop :=
  ∀ p ∈ st, noteStatusOk p.2

/-- The caller-supplied content of a spawn respects the data-model type of
state.status whenever its state clause is used (i.e. is truthy). -/
def spawnStateOk (content : Val) : Prop :=
  match content.get? "state" with
  | some v => v.truthy = true → ∃ w, v.get? "status" = some w ∧ validStatus w
  | none => True

/-- A capability result whose status respects the capability contract
(status in running, done, failed) whenever it is truthy. -/
def resStatusOk (r : ToolResult) : Prop :=
  match r.status with
  | some v => v.truthy = true → validStatus v
  | none => True

/-- The store mutations the engine performs, one constructor per save site of
src/src/index.ts: the spawn save and the guarded parent-edge save of
KnowTool._call, the Memory Note save of saveMemory, the lazy creation and the
flag write of UIControlTool._call, the status merge and the memory append of
the Executor (split in two, matching the statement order of runNote), and the
two note creations of the ui_input line handler. Spawn contents and merged
capability results carry the side conditions under which the claim states
preservation. -/
inductive StoreStep : List (String × Note) → List (String × Note) → Prop where
  | spawn (st : List (String × Note)) (content : Val) (now : Nat)
      (h : spawnStateOk content) :
      StoreStep st (upsert st (mkSpawnNote content now))
  | graphPush (st : List (String × Note)) (id : String) (n : Note) (e : Edge)
      (hn : findNote st id = some n) :
      StoreStep st (upsert st { n with graph := n.graph ++ [e] })
  | memNote (st : List (String × Note)) (pid : String) (entry : Val) (now : Nat) :
      StoreStep st (upsert st (mkMemoryNote pid entry now))
  | control (st : List (String × Note)) (now : Nat) :
      StoreStep st (upsert st (mkControlNote now))
  | controlFlag (st : List (String × Note)) (n : Note) (b : Bool) (fs : Fields)
      (hn : findNote st "ui-status" = some n) (hc : n.content = .vobj fs) :
      StoreStep st (upsert st { n with content := .vobj (fs.set "paused" (.vbool b)) })
  | merge (st : List (String × Note)) (id : String) (n n2 : Note) (r : ToolResult)
      (hn : findNote st id = some n) (hr : resStatusOk r)
      (hm : mergedNote? n r = some n2) :
      StoreStep st (upsert st (applyResultContent n2 r))
  | memAppend (st : List (String × Note)) (id : String) (n : Note) (mid : String)
      (hn : findNote st id = some n) :
      StoreStep st (upsert st { n with memory := n.memory ++ [mid] })
  | inputTask (st : List (String × Note)) (cmd : String) (now : Nat) :
      StoreStep st (upsert st (mkInputTask cmd now))
  | inputNote (st : List (String × Note)) (ty d : String) (now : Nat) :
      StoreStep st (upsert st (mkInputNote ty d now))

/-- The store seeded by main (src/src/index.ts lines 319-324). -/
def seedStore : List (String × Note) := [("root", seedNote)]

/-- Stores reachable from the seed under the engine store mutations. -/
def ReachableStore (st : List (String × Note)) : Prop :=
  Relation.ReflTransGen StoreStep seedStore st

@[simp]
theorem M_bind_eq {α β : Type} (x : M α) (f : α → M β) (s : Sys) :
    (x >>= f) s = match x s with
      | (Except.ok a, s1) => f a s1
      | (Except.error e, s1) => (Except.error e, s1) := rfl

@[simp]
theorem M_pure_eq {α : Type} (a : α) (s : Sys) : (pure a : M α) s = (Except.ok a, s) := rfl

/-- A plain test note fixture: the shape a spawn with a fresh id, the given
content and logic, and the default running state produces. -/
def runningState : Val :=
  Val.obj [("status", .vstr "running"), ("priority", .vnum 50), ("entropy", .vnum 0)]

/-- A note fixture with the default spawn state and resources. -/
def plainNote (id : String) (c l : Val) : Note :=
  { id := id, content := c, graph := [], state := runningState, memory := [],
    tools := .fnil, context := Val.strList ["root"], ts := "0",
    resources := Val.obj [("tokens", .vnum 100), ("cycles", .vnum 100)], logic := l }

theorem findNote_upsert_self (st : List (String × Note)) (n : Note) :
    findNote (upsert st n) n.id = some n := by
  induction st with
  | nil => simp [upsert, findNote]
  | cons p rest ih =>
      obtain ⟨k, m⟩ := p
      by_cases hk : k = n.id
      · simp [upsert, findNote, hk]
      · simp [upsert, findNote, hk, ih]

/-- C8: the Note Store upserts on save and emits a change notification
carrying the saved id after the write; loading an id right after saving a note
with that id returns a structurally equal note (content, graph and logic
included, since Note equality is structural); loading an id that is not in the
store fails with the NotFound error. -/
theorem C8_store_contract :
    (∀ (s : Sys) (n : Note), saveNote n s =
        (Except.ok (), { s with
            store := upsert s.store n
            events := s.events ++ [Ev.change n.id] }))
  ∧ (∀ (s : Sys) (n : Note),
        loadNote n.id ((saveNote n s).2) = (Except.ok n, (saveNote n s).2))
  ∧ (∀ (s : Sys) (id : String), findNote s.store id = none →
        loadNote id s = (Except.error ("Note " ++ id ++ " not found"), s)) := by
  refine ⟨fun s n => rfl, fun s n => ?_, fun s id h => ?_⟩
  · simp [saveNote, loadNote, findNote_upsert_self]
  · simp [loadNote, h]

/-- Witness for C8 at a concrete store, note and missing id. -/
theorem C8_witness :
    loadNote "n1" ((saveNote (plainNote "n1" (Val.obj []) (Val.obj []))
        { store := [], events := [], clock := 0 }).2)
      = (Except.ok (plainNote "n1" (Val.obj []) (Val.obj [])),
          (saveNote (plainNote "n1" (Val.obj []) (Val.obj []))
            { store := [], events := [], clock := 0 }).2)
  ∧ loadNote "zz" { store := [], events := [], clock := 0 }
      = (Except.error "Note zz not found", { store := [], events := [], clock := 0 }) := by
  refine ⟨?_, ?_⟩
  · simpa using C8_store_contract.2.1 { store := [], events := [], clock := 0 }
      (plainNote "n1" (Val.obj []) (Val.obj []))
  · simpa using C8_store_contract.2.2 { store := [], events := [], clock := 0 } "zz" (by rfl)

theorem schedStep_active_le (s : Sched) (op : SchedOp)
    (h : s.active ≤ concurrencyLimit) : (schedStep s op).active ≤ concurrencyLimit := by
  cases op with
  | arrive ev id =>
      by_cases hev : ev = "change"
      · by_cases hlt : s.active < concurrencyLimit
        · simp [schedStep, handleEvent, submitTask, hev, hlt]
          omega
        · simp [schedStep, handleEvent, submitTask, hev, hlt]
          exact h
      · simpa [schedStep, handleEvent, hev] using h
  | complete =>
      by_cases hq : s.queued > 0
      · simpa [schedStep, completeTask, hq] using h
      · simp [schedStep, completeTask, hq]
        omega

theorem schedRun_aux_active_le (ops : List SchedOp) :
    ∀ s : Sched, s.active ≤ concurrencyLimit →
      (ops.foldl schedStep s).active ≤ concurrencyLimit := by
  induction ops with
  | nil => intro s h; simpa using h
  | cons op rest ih =>
      intro s h
      simpa using ih (schedStep s op) (schedStep_active_le s op h)

/-- C9: under any history of change notifications and completions, at most
concurrencyLimit tasks of the bounded pool are in flight; in particular a
burst of concurrencyLimit plus five simultaneous change notifications leaves
exactly concurrencyLimit tasks running and five queued. -/
theorem C9_concurrency_bound :
    (∀ ops : List SchedOp, (schedRun ops).active ≤ concurrencyLimit)
  ∧ schedRun (List.replicate (concurrencyLimit + 5) (SchedOp.arrive "change" "n"))
      = { active := concurrencyLimit, queued := 5 } := by
  constructor
  · intro ops
    exact schedRun_aux_active_le ops schedInit (by simp [schedInit, concurrencyLimit])
  · rfl

/-- The pause gate value the Scheduler eligibility check computes: the paused
property of the Control Note content, false when the Control Note is absent. -/
def pausedFlag (s : Sys) : Bool :=
  match findNote s.store "ui-status" with
  | some n => optTruthy (n.content.get? "paused")
  | none => false

theorem loadStatusContent_eq (s : Sys) :
    loadStatusContent s = (Except.ok (match findNote s.store "ui-status" with
      | some n => n.content
      | none => Val.obj [("paused", .vbool false)]), s) := by
  unfold loadStatusContent mCatch loadNote
  cases h : findNote s.store "ui-status" <;> simp [h]

theorem attemptBodyG_gate (run : String → M Unit) (id : String) (attempt : Nat)
    (s : Sys) (note : Note) (hload : findNote s.store id = some note)
    (hgate : pausedFlag s = true ∨ note.status? ≠ some (Val.vstr "running")) :
    attemptBodyG run id attempt s = (Except.ok (), s) := by
  unfold attemptBodyG
  simp only [M_bind_eq, loadNote, hload, loadStatusContent_eq]
  cases h2 : findNote s.store "ui-status" with
  | some n =>
      have hcond : optTruthy (n.content.get? "paused") = true
          ∨ note.status? ≠ some (Val.vstr "running") := by
        rcases hgate with hp | hs
        · unfold pausedFlag at hp
          rw [h2] at hp
          exact Or.inl hp
        · exact Or.inr hs
      simp only [h2]
      rw [if_pos hcond]
      rfl
  | none =>
      have hcond : optTruthy ((Val.obj [("paused", .vbool false)]).get? "paused") = true
          ∨ note.status? ≠ some (Val.vstr "running") := by
        rcases hgate with hp | hs
        · unfold pausedFlag at hp
          rw [h2] at hp
          exact absurd hp (by simp)
        · exact Or.inr hs
      simp only [h2]
      rw [if_pos hcond]
      rfl

theorem runNoteG_gate (run : String → M Unit) (s : Sys) (id : String) (note : Note)
    (hload : findNote s.store id = some note)
    (hgate : pausedFlag s = true ∨ note.status? ≠ some (Val.vstr "running")) :
    runNoteG run id s = (Except.ok (), { s with events := s.events ++ [Ev.ranNote id] }) := by
  have hload2 : findNote ({ s with events := s.events ++ [Ev.ranNote id] } : Sys).store id
      = some note := hload
  have hgate2 : pausedFlag { s with events := s.events ++ [Ev.ranNote id] } = true
      ∨ note.status? ≠ some (Val.vstr "running") := hgate
  unfold runNoteG
  simp only [M_bind_eq, emitEv]
  show runFromG run id MAX_RETRIES 1 _ = _
  unfold MAX_RETRIES runFromG mCatch
  rw [attemptBodyG_gate run id 1 _ note hload2 hgate2]

/-- C2: when the Control Note is paused, or the loaded note status is not
running, a retry-wrapped run returns successfully with the system unchanged:
same store (no status change, no content merge, no memory append, no save),
same clock, and no trace event beyond the marker recording that runNote was
invoked. -/
theorem C2_eligibility_gate (fuel : Nat) (s : Sys) (id : String) (note : Note)
    (hload : findNote s.store id = some note)
    (hgate : pausedFlag s = true ∨ note.status? ≠ some (Val.vstr "running")) :
    runNoteFuel fuel id s = (Except.ok (), { s with events := s.events ++ [Ev.ranNote id] }) := by
  cases fuel with
  | zero => exact runNoteG_gate _ s id note hload hgate
  | succ f => exact runNoteG_gate _ s id note hload hgate

/-- Witness for C2: a paused system leaves a running note untouched. -/
theorem C2_witness :
    runNoteFuel 1 "n1"
      { store := [("n1", plainNote "n1" (Val.obj [("name", .vstr "know")]) (Val.obj [])),
          ("ui-status", { mkControlNote 0 with content := Val.obj [("paused", .vbool true)] })]
        events := []
        clock := 0 }
    = (Except.ok (),
      { store := [("n1", plainNote "n1" (Val.obj [("name", .vstr "know")]) (Val.obj [])),
          ("ui-status", { mkControlNote 0 with content := Val.obj [("paused", .vbool true)] })]
        events := [Ev.ranNote "n1"]
        clock := 0 }) := by
  exact C2_eligibility_gate 1 _ "n1"
    (plainNote "n1" (Val.obj [("name", .vstr "know")]) (Val.obj []))
    (by rfl) (Or.inl (by rfl))

theorem runFromG_ok (run : String → M Unit) (id : String) :
    ∀ (r : Nat) (attempt : Nat) (s : Sys),
      ∃ s2, runFromG run id r attempt s = (Except.ok (), s2) := by
  intro r
  induction r with
  | zero => intro attempt s; exact ⟨s, rfl⟩
  | succ r ih =>
      intro attempt s
      simp only [runFromG, mCatch]
      rcases hres : attemptBodyG run id attempt s with ⟨res, s1⟩
      cases res with
      | ok a => exact ⟨s1, rfl⟩
      | error e =>
          simp only [M_bind_eq, emitEv]
          by_cases hr : r = 0
          · rw [if_pos hr]
            exact ⟨_, rfl⟩
          · rw [if_neg hr]
            simp only [M_bind_eq, delayMs]
            exact ih (attempt + 1) _

theorem runNoteG_ok (run : String → M Unit) (id : String) (s : Sys) :
    ∃ s2, runNoteG run id s = (Except.ok (), s2) := by
  unfold runNoteG
  simp only [M_bind_eq, emitEv]
  exact runFromG_ok run id MAX_RETRIES 1 _

/-- C6 (amended): whatever error an attempt raises (missing note, missing
capability, validation failure, capability execution error, exhausted model
fuel), the retry-wrapped run catches it at the attempt boundary and returns
successfully for every store, so no exception reaches the Scheduler and one
failing note cannot halt processing of other ids. -/
theorem C6_no_escape (fuel : Nat) (id : String) (s : Sys) :
    ∃ s2, runNoteFuel fuel id s = (Except.ok (), s2) := by
  cases fuel with
  | zero => exact runNoteG_ok _ id s
  | succ f => exact runNoteG_ok _ id s

set_option maxRecDepth 10000

/-- A one-note store whose note names a capability that does not exist, so
every execution attempt throws. -/
def c1store (tn : String) : List (String × Note) :=
  [("n1", plainNote "n1" (Val.obj [("name", .vstr tn)]) (Val.obj []))]

theorem c1_run (run : String → M Unit) (tn : String) (h0 : tn ≠ "")
    (h1 : tn ≠ "know") (h2 : tn ≠ "ui_render") (h3 : tn ≠ "ui_input")
    (h4 : tn ≠ "ui_control") :
    runNoteG run "n1" { store := c1store tn, events := [], clock := 0 }
      = (Except.ok (),
         { store := c1store tn
           events := [Ev.ranNote "n1",
             Ev.attemptStart "n1" 1, Ev.errRunning "n1" ("Tool " ++ tn ++ " not found"),
             Ev.delayed 1000,
             Ev.attemptStart "n1" 2, Ev.errRunning "n1" ("Tool " ++ tn ++ " not found"),
             Ev.delayed 2000,
             Ev.attemptStart "n1" 3, Ev.errRunning "n1" ("Tool " ++ tn ++ " not found"),
             Ev.maxRetries "n1"]
           clock := 3000 }) := by
  simp [runNoteG, runFromG, MAX_RETRIES, BASE_DELAY, delayMs, mCatch,
    attemptBodyG, M_bind_eq, loadNote, c1store, findNote, loadStatusContent,
    emitEv, plainNote, runningState, Val.obj, Fields.ofList, Val.get?, Fields.lookup?,
    Note.status?, optTruthy, Val.truthy, jsOr, Val.strList, ValList.ofList,
    findToolName, toolNotFoundMsg, Val.jsToString, mThrow, h0, h1, h2, h3, h4]

/-- Counterexample to C1 as stated: with the always-throwing note n1 (its
content names the missing capability bogus), the retry-wrapped run leaves the
store exactly as it was, so neither an Error Memory Note per attempt nor a
final max-retries Memory Note is appended (the failures reach only the
logger), and the backoff waits are 1000 and 2000 milliseconds only, never the
claimed third 3x wait. -/
theorem C1_counterexample :
    (runNoteFuel 1 "n1" { store := c1store "bogus", events := [], clock := 0 }).2.store
        = c1store "bogus"
  ∧ ((runNoteFuel 1 "n1" { store := c1store "bogus", events := [], clock := 0 }).2.events.filter
        (fun e => match e with | Ev.delayed _ => true | _ => false))
        = [Ev.delayed 1000, Ev.delayed 2000] := by
  have e : runNoteFuel 1 "n1" { store := c1store "bogus", events := [], clock := 0 }
      = runNoteG (runNoteFuel 0) "n1" { store := c1store "bogus", events := [], clock := 0 } := rfl
  have h := c1_run (runNoteFuel 0) "bogus" (by decide) (by decide) (by decide)
    (by decide) (by decide)
  rw [e, h]
  exact ⟨rfl, rfl⟩

/-- C1 (amended): for a note whose execution throws on every attempt (here:
content.name is any string that is no capability name), the retry-wrapped run
performs exactly MAX_RETRIES (3) attempts, logs one Error line per failed
attempt through the logger followed by one final max-retries log line (no
Memory Notes are appended), and waits attempt times BASE_DELAY after each
non-final failed attempt, i.e. backoff waits of 1x and 2x the base interval
and none after the last attempt; the store is left unchanged. -/
theorem C1_retry_behavior (fuel : Nat) (tn : String) (h0 : tn ≠ "")
    (h1 : tn ≠ "know") (h2 : tn ≠ "ui_render") (h3 : tn ≠ "ui_input")
    (h4 : tn ≠ "ui_control") :
    runNoteFuel fuel "n1" { store := c1store tn, events := [], clock := 0 }
      = (Except.ok (),
         { store := c1store tn
           events := [Ev.ranNote "n1",
             Ev.attemptStart "n1" 1, Ev.errRunning "n1" ("Tool " ++ tn ++ " not found"),
             Ev.delayed 1000,
             Ev.attemptStart "n1" 2, Ev.errRunning "n1" ("Tool " ++ tn ++ " not found"),
             Ev.delayed 2000,
             Ev.attemptStart "n1" 3, Ev.errRunning "n1" ("Tool " ++ tn ++ " not found"),
             Ev.maxRetries "n1"]
           clock := 3000 }) := by
  cases fuel with
  | zero => exact c1_run _ tn h0 h1 h2 h3 h4
  | succ f => exact c1_run _ tn h0 h1 h2 h3 h4

/-- Witness for C1 at the concrete missing capability name zzz. -/
theorem C1_witness :
    runNoteFuel 2 "n1" { store := c1store "zzz", events := [], clock := 0 }
      = (Except.ok (),
         { store := c1store "zzz"
           events := [Ev.ranNote "n1",
             Ev.attemptStart "n1" 1, Ev.errRunning "n1" "Tool zzz not found",
             Ev.delayed 1000,
             Ev.attemptStart "n1" 2, Ev.errRunning "n1" "Tool zzz not found",
             Ev.delayed 2000,
             Ev.attemptStart "n1" 3, Ev.errRunning "n1" "Tool zzz not found",
             Ev.maxRetries "n1"]
           clock := 3000 }) :=
  C1_retry_behavior 2 "zzz" (by decide) (by decide) (by decide) (by decide) (by decide)

/-- A one-note store for the C6 counterexample whose note names the missing
capability missing. -/
def c6sys : Sys :=
  { store := [("m1", plainNote "m1" (Val.obj [("name", .vstr "missing")]) (Val.obj []))]
    events := [], clock := 0 }

/-- Counterexample to C6 as stated: the attempt error (missing capability on
note m1) is caught, the run returns successfully and the error reaches the
logger trace, but it is not converted into a Memory Note: the store after the
retry-wrapped run is exactly the original store, with no Memory Note in it
(the earlier prototype iteration saved an Error Memory Note here; the current
src/src/index.ts only logs). -/
theorem C6_counterexample :
    (runNoteFuel 1 "m1" c6sys).1 = Except.ok ()
  ∧ Ev.errRunning "m1" "Tool missing not found" ∈ (runNoteFuel 1 "m1" c6sys).2.events
  ∧ (runNoteFuel 1 "m1" c6sys).2.store = c6sys.store :=
  ⟨rfl, by decide, by decide⟩

theorem c3_spawnA (run : String → M Unit) (nid : String) (h0 : nid ≠ "") :
    (spawnToolG run (Val.obj [("content",
        Val.obj [("name", .vstr "spawn"), ("id", .vstr nid)])])
      { store := [], events := [], clock := 0 }).2.events = [Ev.change nid] := by
  simp [spawnToolG, validateObj, mkSpawnNote, keyOfVal, jsOr, Val.truthy, Val.get?,
    Fields.lookup?, Val.obj, Fields.ofList, saveNote, upsert, nowTick, getNoteOr,
    findNote, Val.strList, ValList.ofList, emitEv, M_bind_eq, M_pure_eq,
    Val.jsToString, mThrow, h0]

theorem c3_spawnB (run : String → M Unit) (nid : String) (h0 : nid ≠ "")
    (h1 : nid ≠ "ui-status") :
    (spawnToolG (runNote2G run) (Val.obj [("content", Val.obj [("id", .vstr nid)])])
      { store := [], events := [], clock := 0 }).2.events
    = [Ev.change nid, Ev.ranNote nid, Ev.change nid] := by
  simp [spawnToolG, validateObj, mkSpawnNote, keyOfVal, jsOr, Val.truthy, Val.get?,
    Fields.lookup?, Val.obj, Fields.ofList, saveNote, upsert, nowTick, getNoteOr,
    findNote, Val.strList, ValList.ofList, emitEv, M_bind_eq, M_pure_eq,
    Val.jsToString, mThrow, runNote2G, getStatusNote2, mCatch, loadNote,
    Note.status?, optTruthy, h0, h1]

theorem c3_spawnC (run : String → M Unit) (nid nm : String) (h0 : nid ≠ "")
    (h1 : nid ≠ "ui-status") (h2 : nm ≠ "spawn") (h3 : nm ≠ "")
    (h4 : nm ≠ "code_gen") (h5 : nm ≠ "reflect") (h6 : nm ≠ "ui_render")
    (h7 : nm ≠ "ui_input") (h8 : nm ≠ "ui_control") :
    (spawnToolG (runNote2G run) (Val.obj [("content",
        Val.obj [("name", .vstr nm), ("id", .vstr nid)])])
      { store := [], events := [], clock := 0 }).2.events
    = [Ev.change nid, Ev.ranNote nid,
       Ev.errRunning nid ("Tool " ++ nm ++ " not found"),
       Ev.change (nid ++ "-" ++ toString (1 : Nat))] := by
  simp [spawnToolG, validateObj, mkSpawnNote, keyOfVal, jsOr, Val.truthy, Val.get?,
    Fields.lookup?, Val.obj, Fields.ofList, saveNote, upsert, nowTick, getNoteOr,
    findNote, Val.strList, ValList.ofList, emitEv, M_bind_eq, M_pure_eq,
    Val.jsToString, mThrow, runNote2G, getStatusNote2, mCatch, loadNote,
    Note.status?, optTruthy, findToolName2, toolNotFoundMsg, saveMemory, mkMemoryNote,
    h0, h1, h2, h3, h4, h5, h6, h7, h8]

/-- C3: spawning through the spawn capability a note whose content.name is the
literal capability name spawn creates and saves the note (the change event for
the fresh id is emitted) but performs no runNote invocation at all; spawning
with no content.name (undefined differs from spawn under strict equality)
invokes runNote on the new id, which then executes and re-saves it; and
spawning with any other content.name nm (here any name that is no registered
capability) also invokes runNote on the new id. The marker events record every
runNote invocation. -/
theorem C3_spawn_guard (fuel : Nat) (nid nm : String) (h0 : nid ≠ "")
    (h1 : nid ≠ "ui-status") (h2 : nm ≠ "spawn") (h3 : nm ≠ "")
    (h4 : nm ≠ "code_gen") (h5 : nm ≠ "reflect") (h6 : nm ≠ "ui_render")
    (h7 : nm ≠ "ui_input") (h8 : nm ≠ "ui_control") :
    ((spawnToolCall fuel (Val.obj [("content",
        Val.obj [("name", .vstr "spawn"), ("id", .vstr nid)])])
        { store := [], events := [], clock := 0 }).2.events
      = [Ev.change nid])
  ∧ ((spawnToolCall fuel (Val.obj [("content", Val.obj [("id", .vstr nid)])])
        { store := [], events := [], clock := 0 }).2.events
      = [Ev.change nid, Ev.ranNote nid, Ev.change nid])
  ∧ ((spawnToolCall fuel (Val.obj [("content",
        Val.obj [("name", .vstr nm), ("id", .vstr nid)])])
        { store := [], events := [], clock := 0 }).2.events
      = [Ev.change nid, Ev.ranNote nid,
         Ev.errRunning nid ("Tool " ++ nm ++ " not found"),
         Ev.change (nid ++ "-" ++ toString (1 : Nat))]) := by
  refine ⟨c3_spawnA (runNote2Fuel fuel) nid h0, ?_, ?_⟩
  · cases fuel with
    | zero => exact c3_spawnB _ nid h0 h1
    | succ f => exact c3_spawnB _ nid h0 h1
  · cases fuel with
    | zero => exact c3_spawnC _ nid nm h0 h1 h2 h3 h4 h5 h6 h7 h8
    | succ f => exact c3_spawnC _ nid nm h0 h1 h2 h3 h4 h5 h6 h7 h8

/-- Witness for C3 at the concrete id x1 and content name mytool. -/
theorem C3_witness :
    ((spawnToolCall 1 (Val.obj [("content",
        Val.obj [("name", .vstr "spawn"), ("id", .vstr "x1")])])
        { store := [], events := [], clock := 0 }).2.events
      = [Ev.change "x1"])
  ∧ ((spawnToolCall 1 (Val.obj [("content", Val.obj [("id", .vstr "x1")])])
        { store := [], events := [], clock := 0 }).2.events
      = [Ev.change "x1", Ev.ranNote "x1", Ev.change "x1"])
  ∧ ((spawnToolCall 1 (Val.obj [("content",
        Val.obj [("name", .vstr "mytool"), ("id", .vstr "x1")])])
        { store := [], events := [], clock := 0 }).2.events
      = [Ev.change "x1", Ev.ranNote "x1",
         Ev.errRunning "x1" "Tool mytool not found",
         Ev.change ("x1" ++ "-" ++ toString (1 : Nat))]) :=
  C3_spawn_guard 1 "x1" "mytool" (by decide) (by decide) (by decide) (by decide)
    (by decide) (by decide) (by decide) (by decide) (by decide)

/-- The spawn request used twice by the C4 theorem: an explicit id, and the
capability name know so that the created note is not auto-run (the guard of
C3; the parent graph bookkeeping is identical for auto-run contents). -/
def c4input (cid : String) : Val :=
  Val.obj [("content", Val.obj [("id", .vstr cid), ("name", .vstr "know")])]

theorem c4_double (run1 run2 : String → M Unit) (cid : String) (h0 : cid ≠ "")
    (h1 : cid ≠ "root") :
    (knowToolG run2 (c4input cid)
      ((knowToolG run1 (c4input cid) { store := seedStore, events := [], clock := 0 }).2)).2
    = { store := [("root", { seedNote with graph := [Edge.mk cid "contains"] }),
                  (cid, mkSpawnNote (Val.obj [("id", .vstr cid), ("name", .vstr "know")]) 1)]
        events := [Ev.change cid, Ev.change "root", Ev.change cid]
        clock := 2 } := by
  simp [knowToolG, c4input, validateObj, mkSpawnNote, keyOfVal, jsOr, Val.truthy, Val.get?,
    Fields.lookup?, Val.obj, Fields.ofList, saveNote, upsert, nowTick, getNoteOr, findNote,
    Val.strList, ValList.ofList, emitEv, M_bind_eq, M_pure_eq, Val.jsToString, mThrow,
    loadNoteVal, loadNote, arrHead, hasEdgeTo, seedStore, seedNote, h0, h1, Ne.symm h1]

/-- C4: spawning the same id twice against the seeded store leaves the parent
root with exactly one contains edge to that id (the second insertion is
stopped by the existence check), while the second spawn overwrites the child
in place (the stored child is the note built by the second call, at the later
timestamp, under the same key). -/
theorem C4_spawn_idempotent (fuel1 fuel2 : Nat) (cid : String) (h0 : cid ≠ "")
    (h1 : cid ≠ "root") :
    ∃ r : Note,
      findNote ((knowToolCall fuel2 (c4input cid)
          ((knowToolCall fuel1 (c4input cid)
            { store := seedStore, events := [], clock := 0 }).2)).2).store "root" = some r
      ∧ r.graph.countP (fun e => e.target == cid && e.rel == "contains") = 1
      ∧ findNote ((knowToolCall fuel2 (c4input cid)
          ((knowToolCall fuel1 (c4input cid)
            { store := seedStore, events := [], clock := 0 }).2)).2).store cid
          = some (mkSpawnNote (Val.obj [("id", .vstr cid), ("name", .vstr "know")]) 1) := by
  have h := c4_double (runNoteFuel fuel1) (runNoteFuel fuel2) cid h0 h1
  refine ⟨{ seedNote with graph := [Edge.mk cid "contains"] }, ?_, ?_, ?_⟩
  · rw [show (knowToolCall fuel2 (c4input cid)
          ((knowToolCall fuel1 (c4input cid)
            { store := seedStore, events := [], clock := 0 }).2)).2 = _ from h]
    simp [findNote]
  · simp [List.countP_cons, List.countP_nil]
  · rw [show (knowToolCall fuel2 (c4input cid)
          ((knowToolCall fuel1 (c4input cid)
            { store := seedStore, events := [], clock := 0 }).2)).2 = _ from h]
    simp [findNote, Ne.symm h1]

/-- Witness for C4 at the concrete child id c1. -/
theorem C4_witness :
    ∃ r : Note,
      findNote ((knowToolCall 1 (c4input "c1")
          ((knowToolCall 1 (c4input "c1")
            { store := seedStore, events := [], clock := 0 }).2)).2).store "root" = some r
      ∧ r.graph.countP (fun e => e.target == "c1" && e.rel == "contains") = 1
      ∧ findNote ((knowToolCall 1 (c4input "c1")
          ((knowToolCall 1 (c4input "c1")
            { store := seedStore, events := [], clock := 0 }).2)).2).store "c1"
          = some (mkSpawnNote (Val.obj [("id", .vstr "c1"), ("name", .vstr "know")]) 1) :=
  C4_spawn_idempotent 1 1 "c1" (by decide) (by decide)

/-- Content of the C5 note: its name selects the ui_control capability, and
its own command field says pause. -/
def c5content : Val :=
  Val.obj [("name", .vstr "ui_control"), ("command", .vstr "pause"), ("desc", .vstr "x")]

/-- A logic object carrying an arbitrary input value. -/
def c5logic (iv : Val) : Val := Val.obj [("input", iv)]

theorem c5A (run : String → M Unit) (iv : Val) :
    runNoteG run "n1"
      { store := [("n1", plainNote "n1" c5content (c5logic iv))], events := [], clock := 0 }
    = (Except.ok (),
       { store := [("n1", { plainNote "n1" c5content (c5logic iv) with
             content := Val.obj [("name", .vstr "ui_control"), ("command", .vstr "pause"),
               ("desc", .vstr "x"), ("paused", .vbool true)] }),
           ("ui-status", { mkControlNote 0 with
             content := Val.obj [("paused", .vbool true)] })]
         events := [Ev.ranNote "n1", Ev.attemptStart "n1" 1,
           Ev.toolCalled "ui_control" c5content,
           Ev.change "ui-status", Ev.change "ui-status", Ev.change "n1"]
         clock := 1 }) := by
  simp [runNoteG, runFromG, MAX_RETRIES, mCatch, attemptBodyG, M_bind_eq, M_pure_eq,
    loadNote, findNote, loadStatusContent, emitEv, plainNote, runningState, c5content,
    c5logic, Val.obj, Fields.ofList, Val.get?, Fields.lookup?, Note.status?, optTruthy,
    Val.truthy, jsOr, Val.strList, ValList.ofList, findToolName, toolCallG, uiControlCall,
    validateObj, validateOptStr, setProp, mkControlNote, nowTick, saveNote, upsert,
    applyResult, applyResultStatus, mergedNote?, applyResultContent, applyResultMemory,
    storeWrite, Val.assign, assignFields, Fields.set, Val.jsToString, mThrow]

/-- Content of the second C5 note: its name selects ui_render on the log
target, whose result carries a memory entry. -/
def c5contentB : Val :=
  Val.obj [("name", .vstr "ui_render"), ("target", .vstr "log"), ("desc", .vstr "m")]

theorem c5B (run : String → M Unit) (iv : Val) :
    runNoteG run "n2"
      { store := [("n2", plainNote "n2" c5contentB (c5logic iv))], events := [], clock := 0 }
    = (Except.ok (),
       { store := [("n2", { plainNote "n2" c5contentB (c5logic iv) with
             memory := ["n2-0"] }),
           ("n2-0", mkMemoryNote "n2" (.vstr "m") 0)]
         events := [Ev.ranNote "n2", Ev.attemptStart "n2" 1,
           Ev.toolCalled "ui_render" c5contentB,
           Ev.change "n2-0", Ev.change "n2"]
         clock := 1 }) := by
  simp [runNoteG, runFromG, MAX_RETRIES, mCatch, attemptBodyG, M_bind_eq, M_pure_eq,
    loadNote, findNote, loadStatusContent, emitEv, plainNote, runningState, c5contentB,
    c5logic, Val.obj, Fields.ofList, Val.get?, Fields.lookup?, Note.status?, optTruthy,
    Val.truthy, jsOr, Val.strList, ValList.ofList, findToolName, toolCallG, uiRenderCall,
    validateObj, validateOptStr, validateTarget, saveMemory, mkMemoryNote, nowTick,
    saveNote, upsert, applyResult, applyResultStatus, mergedNote?, applyResultContent,
    applyResultMemory, storeWrite, Val.assign, assignFields, Fields.set, Val.jsToString,
    mThrow]
  rfl

/-- Counterexample to C5 as stated: for the note n1 whose content.name selects
ui_control, whose content says command pause, and whose logic.input says
command resume, the Executor invokes the capability with the whole
note.content (the trace records that argument and never the logic.input
object), and the resulting Control Note is paused — the command the content
carries, not the one logic.input carries. -/
theorem C5_counterexample :
    Ev.toolCalled "ui_control" c5content ∈
      (runNoteFuel 1 "n1" { store := [("n1", plainNote "n1" c5content
        (c5logic (Val.obj [("command", .vstr "resume")])))], events := [], clock := 0 }).2.events
  ∧ Ev.toolCalled "ui_control" (Val.obj [("command", .vstr "resume")]) ∉
      (runNoteFuel 1 "n1" { store := [("n1", plainNote "n1" c5content
        (c5logic (Val.obj [("command", .vstr "resume")])))], events := [], clock := 0 }).2.events
  ∧ (match findNote (runNoteFuel 1 "n1" { store := [("n1", plainNote "n1" c5content
        (c5logic (Val.obj [("command", .vstr "resume")])))], events := [], clock := 0 }).2.store
        "ui-status" with
      | some n => n.content.get? "paused"
      | none => none) = some (.vbool true) :=
  ⟨by decide, by decide, by decide⟩

/-- C5 (amended): with no sequential logic and content.name set, the Executor
resolves the named capability and invokes it with the whole note.content as
its argument — logic.input is ignored, as the arbitrary iv shows (the earlier
prototype iteration passed logic.input instead) — then writes the returned
status into state.status, shallow-merges the returned content into
note.content, and appends a Memory Note id to note.memory when the result
carries a memory entry. -/
theorem C5_single_capability (fuel : Nat) (iv : Val) :
    (runNoteFuel fuel "n1"
      { store := [("n1", plainNote "n1" c5content (c5logic iv))], events := [], clock := 0 }
    = (Except.ok (),
       { store := [("n1", { plainNote "n1" c5content (c5logic iv) with
             content := Val.obj [("name", .vstr "ui_control"), ("command", .vstr "pause"),
               ("desc", .vstr "x"), ("paused", .vbool true)] }),
           ("ui-status", { mkControlNote 0 with
             content := Val.obj [("paused", .vbool true)] })]
         events := [Ev.ranNote "n1", Ev.attemptStart "n1" 1,
           Ev.toolCalled "ui_control" c5content,
           Ev.change "ui-status", Ev.change "ui-status", Ev.change "n1"]
         clock := 1 }))
  ∧ (runNoteFuel fuel "n2"
      { store := [("n2", plainNote "n2" c5contentB (c5logic iv))], events := [], clock := 0 }
    = (Except.ok (),
       { store := [("n2", { plainNote "n2" c5contentB (c5logic iv) with
             memory := ["n2-0"] }),
           ("n2-0", mkMemoryNote "n2" (.vstr "m") 0)]
         events := [Ev.ranNote "n2", Ev.attemptStart "n2" 1,
           Ev.toolCalled "ui_render" c5contentB,
           Ev.change "n2-0", Ev.change "n2"]
         clock := 1 })) := by
  cases fuel with
  | zero => exact ⟨c5A _ iv, c5B _ iv⟩
  | succ f => exact ⟨c5A _ iv, c5B _ iv⟩

/-- The C10 note: a sequential logic whose first step (ui_render on the log
target) succeeds and logs a memory entry, and whose second step names the
missing tool bogus, so every attempt throws after the first step mutated the
note. -/
def c10noteD (d : String) : Note :=
  plainNote "n1" (Val.obj [("type", .vstr "t")])
    (Val.obj [("type", .vstr "sequential"),
      ("steps", Val.arr [Val.obj [("tool", .vstr "ui_render"),
          ("input", Val.obj [("target", .vstr "log"), ("desc", .vstr d)])],
        Val.obj [("tool", .vstr "bogus")]])])

/-- The first step input of the C10 note. -/
def c10input (d : String) : Val :=
  Val.obj [("target", .vstr "log"), ("desc", .vstr d)]

theorem c10_run (run : String → M Unit) (d : String) (hd : d ≠ "") :
    runNoteG run "n1" { store := [("n1", c10noteD d)], events := [], clock := 0 }
    = (Except.ok (),
       { store := [("n1", { c10noteD d with memory := ["n1-0", "n1-1001", "n1-3002"] }),
           ("n1-0", mkMemoryNote "n1" (.vstr d) 0),
           ("n1-1001", mkMemoryNote "n1" (.vstr d) 1001),
           ("n1-3002", mkMemoryNote "n1" (.vstr d) 3002)]
         events := [Ev.ranNote "n1",
           Ev.attemptStart "n1" 1, Ev.toolCalled "ui_render" (c10input d),
           Ev.change "n1-0", Ev.errRunning "n1" "Tool bogus not found", Ev.delayed 1000,
           Ev.attemptStart "n1" 2, Ev.toolCalled "ui_render" (c10input d),
           Ev.change "n1-1001", Ev.errRunning "n1" "Tool bogus not found", Ev.delayed 2000,
           Ev.attemptStart "n1" 3, Ev.toolCalled "ui_render" (c10input d),
           Ev.change "n1-3002", Ev.errRunning "n1" "Tool bogus not found",
           Ev.maxRetries "n1"]
         clock := 3003 }) := by
  have e0 : ("n1-" ++ toString (0 : Nat)) = "n1-0" := rfl
  have e1 : ("n1-" ++ toString (1001 : Nat)) = "n1-1001" := rfl
  have e2 : ("n1-" ++ toString (3002 : Nat)) = "n1-3002" := rfl
  simp [e0, e1, e2, runNoteG, runFromG, MAX_RETRIES, BASE_DELAY, delayMs, mCatch,
    attemptBodyG, M_bind_eq, M_pure_eq, loadNote, findNote, loadStatusContent, emitEv,
    plainNote, runningState, c10noteD, c10input, Val.obj, Fields.ofList, Val.get?,
    Fields.lookup?, Note.status?, optTruthy, Val.truthy, jsOr, Val.strList,
    ValList.ofList, findToolName, toolCallG, uiRenderCall, validateObj, validateOptStr,
    validateTarget, saveMemory, mkMemoryNote, nowTick, saveNote, upsert, runStepsG,
    applyResult, applyResultStatus, mergedNote?, applyResultContent, applyResultMemory,
    storeWrite, Val.assign, assignFields, Fields.set, Val.jsToString, toolNotFoundMsg,
    mThrow, Val.arr, hd]

/-- Counterexample to C10 as stated: on the C10 note, every attempt throws at
the second step, yet the stored note under n1 is not as it was before — its
memory grew by one id per attempt through the aliasing of the loaded note, and
the Memory Notes saved by the completed first steps persist in the store. -/
theorem C10_counterexample :
    Ev.errRunning "n1" "Tool bogus not found" ∈
      (runNoteFuel 1 "n1" { store := [("n1", c10noteD "d")], events := [], clock := 0 }).2.events
  ∧ (match findNote (runNoteFuel 1 "n1"
        { store := [("n1", c10noteD "d")], events := [], clock := 0 }).2.store "n1" with
      | some n => n.memory
      | none => []) = ["n1-0", "n1-1001", "n1-3002"]
  ∧ findNote (runNoteFuel 1 "n1"
        { store := [("n1", c10noteD "d")], events := [], clock := 0 }).2.store "n1-0"
      = some (mkMemoryNote "n1" (.vstr "d") 0) := by
  rw [show runNoteFuel 1 "n1" { store := [("n1", c10noteD "d")], events := [], clock := 0 }
      = runNoteG (runNoteFuel 0) "n1"
        { store := [("n1", c10noteD "d")], events := [], clock := 0 } from rfl,
    c10_run (runNoteFuel 0) "d" (by decide)]
  exact ⟨by decide, by decide, by decide⟩

/-- C10 (amended): the Executor calls save for the run note only after all
steps of an attempt complete, so a throwing step skips that closing save — no
change notification for the note id is ever emitted here — but the mutations
earlier steps applied to the loaded note are visible in the store anyway,
because the loaded note aliases the stored object (and Memory Notes saved by
completed steps persist): after the three failing attempts the stored note
carries the three appended memory ids and the three Memory Notes exist. -/
theorem C10_no_closing_save_but_aliased_mutations (fuel : Nat) (d : String) (hd : d ≠ "") :
    runNoteFuel fuel "n1" { store := [("n1", c10noteD d)], events := [], clock := 0 }
    = (Except.ok (),
       { store := [("n1", { c10noteD d with memory := ["n1-0", "n1-1001", "n1-3002"] }),
           ("n1-0", mkMemoryNote "n1" (.vstr d) 0),
           ("n1-1001", mkMemoryNote "n1" (.vstr d) 1001),
           ("n1-3002", mkMemoryNote "n1" (.vstr d) 3002)]
         events := [Ev.ranNote "n1",
           Ev.attemptStart "n1" 1, Ev.toolCalled "ui_render" (c10input d),
           Ev.change "n1-0", Ev.errRunning "n1" "Tool bogus not found", Ev.delayed 1000,
           Ev.attemptStart "n1" 2, Ev.toolCalled "ui_render" (c10input d),
           Ev.change "n1-1001", Ev.errRunning "n1" "Tool bogus not found", Ev.delayed 2000,
           Ev.attemptStart "n1" 3, Ev.toolCalled "ui_render" (c10input d),
           Ev.change "n1-3002", Ev.errRunning "n1" "Tool bogus not found",
           Ev.maxRetries "n1"]
         clock := 3003 }) := by
  cases fuel with
  | zero => exact c10_run _ d hd
  | succ f => exact c10_run _ d hd

/-- Witness for C10 at the concrete memory entry text note-log. -/
theorem C10_witness :
    runNoteFuel 1 "n1" { store := [("n1", c10noteD "note-log")], events := [], clock := 0 }
    = (Except.ok (),
       { store := [("n1", { c10noteD "note-log" with memory := ["n1-0", "n1-1001", "n1-3002"] }),
           ("n1-0", mkMemoryNote "n1" (.vstr "note-log") 0),
           ("n1-1001", mkMemoryNote "n1" (.vstr "note-log") 1001),
           ("n1-3002", mkMemoryNote "n1" (.vstr "note-log") 3002)]
         events := [Ev.ranNote "n1",
           Ev.attemptStart "n1" 1, Ev.toolCalled "ui_render" (c10input "note-log"),
           Ev.change "n1-0", Ev.errRunning "n1" "Tool bogus not found", Ev.delayed 1000,
           Ev.attemptStart "n1" 2, Ev.toolCalled "ui_render" (c10input "note-log"),
           Ev.change "n1-1001", Ev.errRunning "n1" "Tool bogus not found", Ev.delayed 2000,
           Ev.attemptStart "n1" 3, Ev.toolCalled "ui_render" (c10input "note-log"),
           Ev.change "n1-3002", Ev.errRunning "n1" "Tool bogus not found",
           Ev.maxRetries "n1"]
         clock := 3003 }) :=
  C10_no_closing_save_but_aliased_mutations 1 "note-log" (by decide)

theorem findNote_mem (st : List (String × Note)) (id : String) (n : Note)
    (h : findNote st id = some n) : (id, n) ∈ st := by
  induction st with
  | nil => simp [findNote] at h
  | cons p rest ih =>
      obtain ⟨k, m⟩ := p
      by_cases hk : k = id
      · subst hk
        simp [findNote] at h
        subst h
        exact List.mem_cons_self _ _
      · simp [findNote, hk] at h
        exact List.mem_cons_of_mem _ (ih h)

theorem mem_upsert (st : List (String × Note)) (n : Note) (p : String × Note)
    (h : p ∈ upsert st n) : p = (n.id, n) ∨ p ∈ st := by
  induction st with
  | nil =>
      simp [upsert] at h
      exact Or.inl h
  | cons q rest ih =>
      obtain ⟨k, m⟩ := q
      by_cases hk : k = n.id
      · rw [upsert, if_pos hk] at h
        rcases List.mem_cons.mp h with h1 | h1
        · exact Or.inl (by rw [h1, hk])
        · exact Or.inr (List.mem_cons_of_mem _ h1)
      · rw [upsert, if_neg hk] at h
        rcases List.mem_cons.mp h with h1 | h1
        · exact Or.inr (by rw [h1]; exact List.mem_cons_self _ _)
        · rcases ih h1 with h2 | h2
          · exact Or.inl h2
          · exact Or.inr (List.mem_cons_of_mem _ h2)

theorem Fields.lookup?_set_self : (fs : Fields) → (k : String) → (v : Val) →
    (fs.set k v).lookup? k = some v
  | .fnil, k, v => by simp [Fields.set, Fields.lookup?]
  | .fcons k2 w rest, k, v => by
      by_cases hk : k2 = k
      · simp [Fields.set, Fields.lookup?, hk]
      · simp [Fields.set, Fields.lookup?, hk, Fields.lookup?_set_self rest k v]

theorem noteStatusOk_state_eq {n m : Note} (h : m.state = n.state)
    (hn : noteStatusOk n) : noteStatusOk m := by
  obtain ⟨v, hv, h2⟩ := hn
  refine ⟨v, ?_, h2⟩
  rw [Note.status?, h]
  exact hv

theorem mkSpawnNote_statusOk (content : Val) (now : Nat) (h : spawnStateOk content) :
    noteStatusOk (mkSpawnNote content now) := by
  have hdef : ∃ v, (Val.obj [("status", Val.vstr "running"), ("priority", Val.vnum 50),
      ("entropy", Val.vnum 0)]).get? "status" = some v ∧ validStatus v :=
    ⟨Val.vstr "running", by decide, by decide⟩
  show ∃ v, (mkSpawnNote content now).state.get? "status" = some v ∧ validStatus v
  have hst : (mkSpawnNote content now).state = jsOr (content.get? "state")
      (Val.obj [("status", .vstr "running"), ("priority", .vnum 50),
        ("entropy", .vnum 0)]) := rfl
  rw [hst]
  unfold spawnStateOk at h
  cases hc : content.get? "state" with
  | none => simpa [jsOr] using hdef
  | some v =>
      rw [hc] at h
      have h2 : v.truthy = true → ∃ w, v.get? "status" = some w ∧ validStatus w := h
      by_cases ht : v.truthy = true
      · obtain ⟨w, hw, hv⟩ := h2 ht
        simp only [jsOr, if_pos ht]
        exact ⟨w, hw, hv⟩
      · simp only [jsOr, if_neg ht]
        exact hdef

theorem applyResultContent_state (n : Note) (r : ToolResult) :
    (applyResultContent n r).state = n.state := by
  unfold applyResultContent
  cases r.content <;> rfl

theorem merged_statusOk (n n2 : Note) (r : ToolResult) (hr : resStatusOk r)
    (hm : mergedNote? n r = some n2) : noteStatusOk (applyResultContent n2 r) := by
  unfold mergedNote? at hm
  cases hst : n.state with
  | vobj fs =>
      rw [hst] at hm
      have hn2 : n2 = { n with state := .vobj (fs.set "status" (jsOr r.status (.vstr "done"))) } := by
        simpa using hm.symm
      refine ⟨jsOr r.status (.vstr "done"), ?_, ?_⟩
      · rw [Note.status?, applyResultContent_state, hn2]
        exact Fields.lookup?_set_self fs "status" _
      · unfold resStatusOk at hr
        cases hs : r.status with
        | none => rw [jsOr]; exact (by decide : validStatus (.vstr "done"))
        | some v =>
            rw [hs] at hr
            by_cases ht : v.truthy = true
            · rw [jsOr, if_pos ht]
              exact hr ht
            · rw [jsOr, if_neg ht]
              exact (by decide : validStatus (.vstr "done"))
  | vnull => rw [hst] at hm; exact absurd hm (by simp)
  | vbool b => rw [hst] at hm; exact absurd hm (by simp)
  | vnum m => rw [hst] at hm; exact absurd hm (by simp)
  | vstr s => rw [hst] at hm; exact absurd hm (by simp)
  | varr xs => rw [hst] at hm; exact absurd hm (by simp)

theorem storeInv_upsert (st : List (String × Note)) (n : Note)
    (hs : storeInv st) (hn : noteStatusOk n) : storeInv (upsert st n) := by
  intro p hp
  rcases mem_upsert st n p hp with h | h
  · rw [h]
    exact hn
  · exact hs p h

theorem storeInv_seed : storeInv seedStore := by
  intro p hp
  simp [seedStore] at hp
  rw [hp]
  exact ⟨.vstr "running", rfl, by decide⟩

/-- C7: every store reachable from the seed under the engine mutations only
contains notes whose state.status is one of pending, running, done, failed;
spawn preserves it because the caller-supplied content.state (constrained to
the data-model status type by the spawning side condition) or the default
running state is used, and the Executor merge preserves it because the merged
status is the capability-returned status (constrained by the capability
contract) or the default done. -/
theorem C7_status_invariant (st : List (String × Note)) (h : ReachableStore st) :
    storeInv st := by
  unfold ReachableStore at h
  induction h with
  | refl => exact storeInv_seed
  | tail hr step ih =>
      cases step with
      | spawn content now hc =>
          exact storeInv_upsert _ _ ih (mkSpawnNote_statusOk content now hc)
      | graphPush id n e hn =>
          exact storeInv_upsert _ _ ih
            (noteStatusOk_state_eq rfl (ih (id, n) (findNote_mem _ _ _ hn)))
      | memNote pid entry now =>
          exact storeInv_upsert _ _ ih ⟨.vstr "done", rfl, by decide⟩
      | control now =>
          exact storeInv_upsert _ _ ih ⟨.vstr "running", rfl, by decide⟩
      | controlFlag n b fs hn hc =>
          exact storeInv_upsert _ _ ih
            (noteStatusOk_state_eq rfl (ih ("ui-status", n) (findNote_mem _ _ _ hn)))
      | merge id n n2 r hn hres hm =>
          exact storeInv_upsert _ _ ih (merged_statusOk n n2 r hres hm)
      | memAppend id n mid hn =>
          exact storeInv_upsert _ _ ih
            (noteStatusOk_state_eq rfl (ih (id, n) (findNote_mem _ _ _ hn)))
      | inputTask cmd now =>
          exact storeInv_upsert _ _ ih ⟨.vstr "running", rfl, by decide⟩
      | inputNote ty d now =>
          exact storeInv_upsert _ _ ih ⟨.vstr "pending", rfl, by decide⟩

/-- Witness for C7: the store after one spawn step from the seed. -/
theorem C7_witness :
    storeInv (upsert seedStore (mkSpawnNote (Val.obj [("id", Val.vstr "c1")]) 5)) :=
  C7_status_invariant _ (Relation.ReflTransGen.tail Relation.ReflTransGen.refl
    (StoreStep.spawn seedStore (Val.obj [("id", Val.vstr "c1")]) 5
      (by simp [spawnStateOk, Val.obj, Fields.ofList, Val.get?, Fields.lookup?])))

end Netention
